import Mathlib

/-!
Verification of the beacon-chain head-management and RPC query surface.

The data model embeds the gRPC server of blocks.go (ListBlocks,
GetChainHead, StreamBlocks, StreamChainHead, chainHeadRetrieval) and the
Head Manager / Checkpoint Store operations described by the design
document.  Roots are modelled as natural numbers, the Durable Store as
function-valued capabilities returning Except values (an error result
models a failed DB call, an ok none result models "not found"), and the
ssz hash as an abstract total function on non-nil blocks: in the source,
hashing fails exactly when the inner block pointer is nil, which the
embedding reflects by matching on the optional inner block first.
-/

/-- A 32-byte block root, modelled as a natural number. -/
abbrev Root := Nat

/-- The inner (unsigned) beacon block; only the slot matters for the
properties verified here. -/
structure BeaconBlock where
  slot : Nat
deriving DecidableEq

/-- A signed beacon block; the inner block pointer may be nil in Go,
hence the Option. -/
structure SignedBeaconBlock where
  block : Option BeaconBlock
deriving DecidableEq

/-- A checkpoint: (epoch, block root). -/
structure Checkpoint where
  epoch : Nat
  root : Root
deriving DecidableEq

/-- gRPC status codes used by the embedded handlers.  unknown stands for
an error returned without an explicit status code (Go wraps such errors
as codes.Unknown at the transport). -/
inductive GrpcCode where
  | internal
  | invalidArgument
  | unavailable
  | aborted
  | canceled
  | failedPrecondition
  | unknown
deriving DecidableEq

/-- The Durable Store capability consumed by the RPC server: root-keyed
block lookup, closed-range filters by epoch and by slot, and the genesis
block.  An error value models a failing DB call; ok none models a clean
"no such block". -/
structure BeaconDB where
  blockByRoot : Root → Except Unit (Option SignedBeaconBlock)
  blocksByEpoch : Nat → Nat → Except Unit (List SignedBeaconBlock)
  blocksBySlot : Nat → Nat → Except Unit (List SignedBeaconBlock)
  genesisBlock : Except Unit (Option SignedBeaconBlock)

/-- The RPC server state: configured maximum page size, the cached head
block (HeadFetcher.HeadBlock), the three checkpoints
(FinalizationFetcher), the Durable Store and the ssz hash function. -/
structure Server where
  maxPageSize : Nat
  headBlock : Option SignedBeaconBlock
  finalizedCheckpt : Checkpoint
  justifiedCheckpt : Checkpoint
  previousJustifiedCheckpt : Checkpoint
  beaconDB : BeaconDB
  htr : BeaconBlock → Root

/-- Slots per epoch (params.BeaconConfig().SlotsPerEpoch). -/
def slotsPerEpoch : Nat := 32

/-- helpers.SlotToEpoch: integer division of the slot by slots-per-epoch. -/
def slotToEpoch (slot : Nat) : Nat := slot / slotsPerEpoch

/-- The chain-head response assembled by chainHeadRetrieval. -/
structure ChainHead where
  headSlot : Nat
  headEpoch : Nat
  headBlockRoot : Root
  finalizedSlot : Nat
  finalizedEpoch : Nat
  finalizedBlockRoot : Root
  justifiedSlot : Nat
  justifiedEpoch : Nat
  justifiedBlockRoot : Root
  previousJustifiedSlot : Nat
  previousJustifiedEpoch : Nat
  previousJustifiedBlockRoot : Root
deriving DecidableEq

/-- Resolution of a checkpoint root to its persisted inner block,
mirroring the source pattern err != nil || b == nil || b.Block == nil:
any of the three failure modes yields none. -/
def resolveCheckpointBlock (srv : Server) (cp : Checkpoint) : Option BeaconBlock :=
  match srv.beaconDB.blockByRoot cp.root with
  | .error _ => none
  | .ok none => none
  | .ok (some sb) => sb.block

/-- chainHeadRetrieval: fails with Internal if the cached head block is
nil, if hashing the head block fails (inner block nil), or if any of the
three checkpoint roots fails to resolve; otherwise returns the complete
chain-head response. -/
def chainHeadRetrieval (srv : Server) : Except GrpcCode ChainHead :=
  match srv.headBlock with
  | none => .error .internal
  | some headBlock =>
    match headBlock.block with
    | none => .error .internal
    | some hb =>
      let headBlockRoot := srv.htr hb
      match resolveCheckpointBlock srv srv.finalizedCheckpt with
      | none => .error .internal
      | some finalizedBlock =>
        match resolveCheckpointBlock srv srv.justifiedCheckpt with
        | none => .error .internal
        | some justifiedBlock =>
          match resolveCheckpointBlock srv srv.previousJustifiedCheckpt with
          | none => .error .internal
          | some prevJustifiedBlock =>
            .ok {
              headSlot := hb.slot
              headEpoch := slotToEpoch hb.slot
              headBlockRoot := headBlockRoot
              finalizedSlot := finalizedBlock.slot
              finalizedEpoch := srv.finalizedCheckpt.epoch
              finalizedBlockRoot := srv.finalizedCheckpt.root
              justifiedSlot := justifiedBlock.slot
              justifiedEpoch := srv.justifiedCheckpt.epoch
              justifiedBlockRoot := srv.justifiedCheckpt.root
              previousJustifiedSlot := prevJustifiedBlock.slot
              previousJustifiedEpoch := srv.previousJustifiedCheckpt.epoch
              previousJustifiedBlockRoot := srv.previousJustifiedCheckpt.root }

/-- GetChainHead delegates to chainHeadRetrieval. -/
def GetChainHead (srv : Server) : Except GrpcCode ChainHead :=
  chainHeadRetrieval srv

/-- C1: chainHeadRetrieval (hence GetChainHead) fails with Internal
whenever the cached head block is unset or any of the three checkpoint
roots fails to resolve to a persisted, non-empty block, and on success
returns the head slot, epoch and root together with each checkpoint's
epoch, root and resolved block slot; the response is never partial. -/
theorem chainHeadRetrieval_internal_or_complete (srv : Server) :
    ((srv.headBlock = none ∨
      resolveCheckpointBlock srv srv.finalizedCheckpt = none ∨
      resolveCheckpointBlock srv srv.justifiedCheckpt = none ∨
      resolveCheckpointBlock srv srv.previousJustifiedCheckpt = none) →
      chainHeadRetrieval srv = .error .internal) ∧
    (∀ hsb hb fb jb pb,
      srv.headBlock = some hsb →
      hsb.block = some hb →
      resolveCheckpointBlock srv srv.finalizedCheckpt = some fb →
      resolveCheckpointBlock srv srv.justifiedCheckpt = some jb →
      resolveCheckpointBlock srv srv.previousJustifiedCheckpt = some pb →
      chainHeadRetrieval srv =
        .ok ⟨hb.slot, slotToEpoch hb.slot, srv.htr hb,
             fb.slot, srv.finalizedCheckpt.epoch, srv.finalizedCheckpt.root,
             jb.slot, srv.justifiedCheckpt.epoch, srv.justifiedCheckpt.root,
             pb.slot, srv.previousJustifiedCheckpt.epoch,
             srv.previousJustifiedCheckpt.root⟩) := by
  constructor
  · intro h
    rcases hhd : srv.headBlock with _ | hsb
    · simp [chainHeadRetrieval, hhd]
    · rcases hblk : hsb.block with _ | hb
      · simp [chainHeadRetrieval, hhd, hblk]
      · rcases hf : resolveCheckpointBlock srv srv.finalizedCheckpt with _ | fb
        · simp [chainHeadRetrieval, hhd, hblk, hf]
        · rcases hj : resolveCheckpointBlock srv srv.justifiedCheckpt with _ | jb
          · simp [chainHeadRetrieval, hhd, hblk, hf, hj]
          · rcases hp : resolveCheckpointBlock srv srv.previousJustifiedCheckpt with _ | pb
            · simp [chainHeadRetrieval, hhd, hblk, hf, hj, hp]
            · rcases h with h | h | h | h <;> simp_all
  · intro hsb hb fb jb pb hhd hblk hf hj hp
    simp [chainHeadRetrieval, hhd, hblk, hf, hj, hp]

/-- A concrete server for the chain-head scenario of the design
document: head slot 10, finalized checkpoint epoch 2 / root 1, justified
checkpoint epoch 3 / root 2, previous-justified epoch 2 / root 1; root 1
resolves to a block at slot 64 and root 2 to a block at slot 96. -/
def srvChainHead : Server :=
  { maxPageSize := 250
    headBlock := some ⟨some ⟨10⟩⟩
    finalizedCheckpt := ⟨2, 1⟩
    justifiedCheckpt := ⟨3, 2⟩
    previousJustifiedCheckpt := ⟨2, 1⟩
    beaconDB :=
      { blockByRoot := fun r =>
          if r = 1 then .ok (some ⟨some ⟨64⟩⟩)
          else if r = 2 then .ok (some ⟨some ⟨96⟩⟩)
          else .ok none
        blocksByEpoch := fun _ _ => .ok []
        blocksBySlot := fun _ _ => .ok []
        genesisBlock := .ok none }
    htr := fun b => b.slot + 1000 }

/-- Witness for C1: on the concrete server the retrieval succeeds with
the fully populated response. -/
theorem chainHeadRetrieval_internal_or_complete_witness :
    chainHeadRetrieval srvChainHead =
      .ok ⟨10, 0, 1010, 64, 2, 1, 96, 3, 2, 64, 2, 1⟩ :=
  (chainHeadRetrieval_internal_or_complete srvChainHead).2
    ⟨some ⟨10⟩⟩ ⟨10⟩ ⟨64⟩ ⟨96⟩ ⟨64⟩ rfl rfl rfl rfl rfl

/-- The oneof query filter of a ListBlocksRequest; unspecified models a
request with no filter set. -/
inductive QueryFilter where
  | epochFilter (epoch : Nat)
  | rootFilter (root : Root)
  | slotFilter (slot : Nat)
  | genesisFilter (genesis : Bool)
  | unspecified
deriving DecidableEq

/-- A ListBlocks request: page size, page token and the query filter. -/
structure ListBlocksRequest where
  pageSize : Nat
  pageToken : String
  queryFilter : QueryFilter
deriving DecidableEq

/-- A block together with its computed root. -/
structure BeaconBlockContainer where
  block : SignedBeaconBlock
  blockRoot : Root
deriving DecidableEq

/-- A ListBlocks response: containers, total size, next page token. -/
structure ListBlocksResponse where
  blockContainers : List BeaconBlockContainer
  totalSize : Nat
  nextPageToken : String
deriving DecidableEq

/-- Default page size used when a request leaves pageSize at zero. -/
def defaultPageSize : Nat := 250

/-- Modelled from the spec: the pagination.StartAndEndPage helper is not
part of the excerpt; the spec says that epoch/slot filters "apply
offset/limit pagination over the result set".  The page token encodes a
page index (empty meaning the first page), the window is
[token * pageSize, min((token+1) * pageSize, totalSize)), a start offset
at or past the end of the list and an unparsable token are errors, and
the next-page token encodes the following page index. -/
def StartAndEndPage (pageToken : String) (pageSize : Nat) (totalSize : Nat) :
    Except Unit (Nat × Nat × String) :=
  match (if pageToken = "" then some 0 else pageToken.toNat?) with
  | none => .error ()
  | some token =>
    let ps := if pageSize = 0 then defaultPageSize else pageSize
    let start := token * ps
    if totalSize ≤ start then .error ()
    else .ok (start, min (start + ps) totalSize, toString (token + 1))

/-- Computes one container per block, mirroring the loop that hashes
each block; a nil inner block makes the hash fail, which the source
returns as a bare (uncoded) error. -/
def buildContainers (srv : Server) (blks : List SignedBeaconBlock) :
    Except Unit (List BeaconBlockContainer) :=
  blks.mapM fun b =>
    match b.block with
    | none => .error ()
    | some inner => .ok ⟨b, srv.htr inner⟩

/-- ListBlocks: rejects oversized page sizes, then dispatches on the
query filter.  Epoch and slot filters run a closed-range DB lookup and
paginate; an empty result short-circuits to an empty success response
with token "0".  A root filter looks up one block, returning an empty
success response when it is absent, and ignores pagination.  The genesis
filter returns the genesis block or an Internal error when it is
missing.  No filter yields InvalidArgument. -/
def ListBlocks (srv : Server) (req : ListBlocksRequest) :
    Except GrpcCode ListBlocksResponse :=
  if srv.maxPageSize < req.pageSize then .error .invalidArgument
  else
    match req.queryFilter with
    | .epochFilter e =>
      match srv.beaconDB.blocksByEpoch e e with
      | .error _ => .error .internal
      | .ok blks =>
        if blks.length = 0 then .ok ⟨[], 0, "0"⟩
        else
          match StartAndEndPage req.pageToken req.pageSize blks.length with
          | .error _ => .error .internal
          | .ok (start, stop, nextTok) =>
            match buildContainers srv ((blks.drop start).take (stop - start)) with
            | .error _ => .error .unknown
            | .ok containers => .ok ⟨containers, blks.length, nextTok⟩
    | .rootFilter r =>
      match srv.beaconDB.blockByRoot r with
      | .error _ => .error .internal
      | .ok none => .ok ⟨[], 0, "0"⟩
      | .ok (some blk) =>
        match blk.block with
        | none => .error .unknown
        | some inner => .ok ⟨[⟨blk, srv.htr inner⟩], 1, ""⟩
    | .slotFilter s =>
      match srv.beaconDB.blocksBySlot s s with
      | .error _ => .error .internal
      | .ok blks =>
        if blks.length = 0 then .ok ⟨[], 0, "0"⟩
        else
          match StartAndEndPage req.pageToken req.pageSize blks.length with
          | .error _ => .error .internal
          | .ok (start, stop, nextTok) =>
            match buildContainers srv ((blks.drop start).take (stop - start)) with
            | .error _ => .error .unknown
            | .ok containers => .ok ⟨containers, blks.length, nextTok⟩
    | .genesisFilter _ =>
      match srv.beaconDB.genesisBlock with
      | .error _ => .error .internal
      | .ok none => .error .internal
      | .ok (some gb) =>
        match gb.block with
        | none => .error .unknown
        | some inner => .ok ⟨[⟨gb, srv.htr inner⟩], 1, "0"⟩
    | .unspecified => .error .invalidArgument

/-- C8: ListBlocks fails with InvalidArgument exactly when the requested
page size exceeds the configured maximum or the request carries no query
filter; every other outcome is either a success or an error with a
different code, and in the two caller-error cases no lookup result is
returned (the handler yields an error, not a response). -/
theorem ListBlocks_invalidArgument_iff (srv : Server) (req : ListBlocksRequest) :
    (srv.maxPageSize < req.pageSize →
      ListBlocks srv req = .error .invalidArgument) ∧
    (req.queryFilter = .unspecified →
      ListBlocks srv req = .error .invalidArgument) ∧
    (ListBlocks srv req = .error .invalidArgument →
      srv.maxPageSize < req.pageSize ∨ req.queryFilter = .unspecified) := by
  refine ⟨?_, ?_, ?_⟩
  · intro h
    simp [ListBlocks, h]
  · intro h
    by_cases hps : srv.maxPageSize < req.pageSize
    · simp [ListBlocks, hps]
    · simp [ListBlocks, hps, h]
  · intro h
    by_cases hps : srv.maxPageSize < req.pageSize
    · exact Or.inl hps
    · refine Or.inr ?_
      rcases hq : req.queryFilter with e | r | s | g | _
      · exfalso
        rcases hdb : srv.beaconDB.blocksByEpoch e e with u | blks
        · simp [ListBlocks, hps, hq, hdb] at h
        · by_cases hlen : blks.length = 0
          · simp [ListBlocks, hps, hq, hdb, hlen] at h
          · rcases hsp : StartAndEndPage req.pageToken req.pageSize blks.length with
              u | ⟨start, stop, tok⟩
            · simp [ListBlocks, hps, hq, hdb, hlen, hsp] at h
            · rcases hbc : buildContainers srv ((blks.drop start).take (stop - start)) with
                u | cs
              · simp [ListBlocks, hps, hq, hdb, hlen, hsp, hbc] at h
              · simp [ListBlocks, hps, hq, hdb, hlen, hsp, hbc] at h
      · exfalso
        rcases hdb : srv.beaconDB.blockByRoot r with u | ob
        · simp [ListBlocks, hps, hq, hdb] at h
        · rcases ob with _ | blk
          · simp [ListBlocks, hps, hq, hdb] at h
          · rcases hbi : blk.block with _ | inner
            · simp [ListBlocks, hps, hq, hdb, hbi] at h
            · simp [ListBlocks, hps, hq, hdb, hbi] at h
      · exfalso
        rcases hdb : srv.beaconDB.blocksBySlot s s with u | blks
        · simp [ListBlocks, hps, hq, hdb] at h
        · by_cases hlen : blks.length = 0
          · simp [ListBlocks, hps, hq, hdb, hlen] at h
          · rcases hsp : StartAndEndPage req.pageToken req.pageSize blks.length with
              u | ⟨start, stop, tok⟩
            · simp [ListBlocks, hps, hq, hdb, hlen, hsp] at h
            · rcases hbc : buildContainers srv ((blks.drop start).take (stop - start)) with
                u | cs
              · simp [ListBlocks, hps, hq, hdb, hlen, hsp, hbc] at h
              · simp [ListBlocks, hps, hq, hdb, hlen, hsp, hbc] at h
      · exfalso
        rcases hdb : srv.beaconDB.genesisBlock with u | ob
        · simp [ListBlocks, hps, hq, hdb] at h
        · rcases ob with _ | gb
          · simp [ListBlocks, hps, hq, hdb] at h
          · rcases hbi : gb.block with _ | inner
            · simp [ListBlocks, hps, hq, hdb, hbi] at h
            · simp [ListBlocks, hps, hq, hdb, hbi] at h
      · rfl

/-- Witness for C8: a request with no filter on the concrete server is
rejected with InvalidArgument. -/
theorem ListBlocks_invalidArgument_iff_witness :
    ListBlocks srvChainHead ⟨0, "", .unspecified⟩ = .error .invalidArgument :=
  (ListBlocks_invalidArgument_iff srvChainHead ⟨0, "", .unspecified⟩).2.1 rfl

/-- A server whose Durable Store holds no blocks at all: every lookup
cleanly reports "not found", including the genesis block. -/
def srvNoGenesis : Server :=
  { maxPageSize := 250
    headBlock := none
    finalizedCheckpt := ⟨0, 0⟩
    justifiedCheckpt := ⟨0, 0⟩
    previousJustifiedCheckpt := ⟨0, 0⟩
    beaconDB :=
      { blockByRoot := fun _ => .ok none
        blocksByEpoch := fun _ _ => .ok []
        blocksBySlot := fun _ _ => .ok []
        genesisBlock := .ok none }
    htr := fun b => b.slot + 1000 }

/-- C3 counterexample: a genesis-filter request with page size within
the limit and zero matching blocks (no genesis block persisted) returns
an Internal error instead of the empty success response the claim
requires for every valid filter. -/
theorem ListBlocks_genesis_emptyMatch_internal :
    ListBlocks srvNoGenesis ⟨0, "", .genesisFilter true⟩ = .error .internal := rfl

/-- C3 (amended): for epoch, root and slot filters with a page size
within the limit, zero matching blocks yield a successful response with
an empty container list, totalSize 0 and next-page token "0" (the
genesis filter instead fails with Internal when the genesis block is
absent). -/
theorem ListBlocks_emptyMatch_ok (srv : Server) (req : ListBlocksRequest)
    (hps : req.pageSize ≤ srv.maxPageSize) :
    (∀ e, req.queryFilter = .epochFilter e →
      srv.beaconDB.blocksByEpoch e e = .ok [] →
      ListBlocks srv req = .ok ⟨[], 0, "0"⟩) ∧
    (∀ r, req.queryFilter = .rootFilter r →
      srv.beaconDB.blockByRoot r = .ok none →
      ListBlocks srv req = .ok ⟨[], 0, "0"⟩) ∧
    (∀ s, req.queryFilter = .slotFilter s →
      srv.beaconDB.blocksBySlot s s = .ok [] →
      ListBlocks srv req = .ok ⟨[], 0, "0"⟩) := by
  have hps2 : ¬ srv.maxPageSize < req.pageSize := not_lt.mpr hps
  refine ⟨?_, ?_, ?_⟩ <;> intro x hq hdb <;> simp [ListBlocks, hps2, hq, hdb]

/-- Witness for C3 (amended): an epoch filter matching zero blocks on
the empty concrete server returns the empty success response. -/
theorem ListBlocks_emptyMatch_ok_witness :
    ListBlocks srvNoGenesis ⟨0, "", .epochFilter 3⟩ = .ok ⟨[], 0, "0"⟩ :=
  (ListBlocks_emptyMatch_ok srvNoGenesis ⟨0, "", .epochFilter 3⟩
    (by decide)).1 3 rfl rfl

/-- A server persisting one block (slot 7) under root 5, used for the
root-filter claims. -/
def srvRootBlock : Server :=
  { maxPageSize := 250
    headBlock := none
    finalizedCheckpt := ⟨0, 0⟩
    justifiedCheckpt := ⟨0, 0⟩
    previousJustifiedCheckpt := ⟨0, 0⟩
    beaconDB :=
      { blockByRoot := fun r => if r = 5 then .ok (some ⟨some ⟨7⟩⟩) else .ok none
        blocksByEpoch := fun _ _ => .ok []
        blocksBySlot := fun _ _ => .ok []
        genesisBlock := .ok none }
    htr := fun b => b.slot + 1000 }

/-- C9 counterexample: for a root-filter request matching a persisted
block, the page size does affect the outcome: at pageSize 251 (above the
maximum 250) the call fails with InvalidArgument, while at pageSize 250
it returns the single-container response, so pagination parameters are
not without effect as the claim states. -/
theorem ListBlocks_root_pageSize_effect :
    ListBlocks srvRootBlock ⟨251, "", .rootFilter 5⟩ = .error .invalidArgument ∧
    ListBlocks srvRootBlock ⟨250, "", .rootFilter 5⟩ =
      .ok ⟨[⟨⟨some ⟨7⟩⟩, 1007⟩], 1, ""⟩ :=
  ⟨rfl, rfl⟩

/-- C9 (amended): for a root-filter request whose page size is within
the configured maximum and whose root matches a persisted block, the
response holds exactly one container (the block with its computed root)
and totalSize 1; moreover, among requests with page size within the
maximum, pageSize and pageToken have no effect on root-filter or
genesis-filter results. -/
theorem ListBlocks_root_single_ignores_pagination (srv : Server) (r : Root)
    (blk : SignedBeaconBlock) (inner : BeaconBlock)
    (hdb : srv.beaconDB.blockByRoot r = .ok (some blk))
    (hbi : blk.block = some inner) :
    (∀ req : ListBlocksRequest, req.queryFilter = .rootFilter r →
      req.pageSize ≤ srv.maxPageSize →
      ListBlocks srv req = .ok ⟨[⟨blk, srv.htr inner⟩], 1, ""⟩) ∧
    (∀ ps1 ps2 tok1 tok2, ps1 ≤ srv.maxPageSize → ps2 ≤ srv.maxPageSize →
      ListBlocks srv ⟨ps1, tok1, .rootFilter r⟩ =
        ListBlocks srv ⟨ps2, tok2, .rootFilter r⟩) ∧
    (∀ g ps1 ps2 tok1 tok2, ps1 ≤ srv.maxPageSize → ps2 ≤ srv.maxPageSize →
      ListBlocks srv ⟨ps1, tok1, .genesisFilter g⟩ =
        ListBlocks srv ⟨ps2, tok2, .genesisFilter g⟩) := by
  refine ⟨?_, ?_, ?_⟩
  · intro req hq hps
    simp [ListBlocks, not_lt.mpr hps, hq, hdb, hbi]
  · intro ps1 ps2 tok1 tok2 h1 h2
    simp [ListBlocks, not_lt.mpr h1, not_lt.mpr h2, hdb, hbi]
  · intro g ps1 ps2 tok1 tok2 h1 h2
    simp [ListBlocks, not_lt.mpr h1, not_lt.mpr h2]

/-- Witness for C9 (amended): the concrete single-block server returns
the one-container response for the matching root at two different page
sizes and tokens. -/
theorem ListBlocks_root_single_ignores_pagination_witness :
    ListBlocks srvRootBlock ⟨0, "", .rootFilter 5⟩ =
      .ok ⟨[⟨⟨some ⟨7⟩⟩, 1007⟩], 1, ""⟩ ∧
    ListBlocks srvRootBlock ⟨17, "2", .rootFilter 5⟩ =
      ListBlocks srvRootBlock ⟨3, "9", .rootFilter 5⟩ :=
  ⟨(ListBlocks_root_single_ignores_pagination srvRootBlock 5 ⟨some ⟨7⟩⟩ ⟨7⟩
      rfl rfl).1 ⟨0, "", .rootFilter 5⟩ rfl (by decide),
   (ListBlocks_root_single_ignores_pagination srvRootBlock 5 ⟨some ⟨7⟩⟩ ⟨7⟩
      rfl rfl).2.1 17 3 "2" "9" (by decide) (by decide)⟩

/-- Event types carried on the block feed; the handler only reacts to
ReceivedBlock. -/
inductive BlockFeedType where
  | receivedBlock
  | otherEvent
deriving DecidableEq

/-- Payload of a block-feed event: either a ReceivedBlockData carrying a
possibly-nil signed block, or data of the wrong dynamic type (the type
assertion in the handler fails). -/
inductive BlockEventData where
  | receivedData (signedBlock : Option SignedBeaconBlock)
  | badData
deriving DecidableEq

/-- A block-feed event as seen by StreamBlocks. -/
structure BlockEvent where
  type : BlockFeedType
  data : BlockEventData
deriving DecidableEq

/-- Event types carried on the state feed; StreamChainHead only reacts
to BlockProcessed and ignores the payload. -/
inductive StateFeedType where
  | chainStarted
  | initialized
  | blockProcessed
deriving DecidableEq

/-- One arm of the per-connection select loop: an event arriving on the
subscription channel, the subscription error channel firing, the
server-wide context being canceled, or the per-stream caller context
being canceled. -/
inductive StreamInput (e : Type) where
  | event (ev : e)
  | subscriberErr
  | serverCtxDone
  | streamCtxDone
deriving DecidableEq

/-- StreamBlocks as a function of the sequence of select outcomes: the
loop forwards each ReceivedBlock event with a non-nil signed block
(sendOk tells whether the gRPC send succeeds), skips nil blocks and
events of other types, and terminates with FailedPrecondition on bad
event data, Unavailable on a failed send, Aborted when the subscription
errors, and Canceled when either context is done.  The result is the
list of blocks actually sent and the terminating status, none meaning
the loop is still blocked waiting for input. -/
def StreamBlocks (sendOk : SignedBeaconBlock → Bool) :
    List (StreamInput BlockEvent) → List SignedBeaconBlock × Option GrpcCode
  | [] => ([], none)
  | .subscriberErr :: _ => ([], some .aborted)
  | .serverCtxDone :: _ => ([], some .canceled)
  | .streamCtxDone :: _ => ([], some .canceled)
  | .event ev :: rest =>
    if ev.type = BlockFeedType.receivedBlock then
      match ev.data with
      | .badData => ([], some .failedPrecondition)
      | .receivedData none => StreamBlocks sendOk rest
      | .receivedData (some sb) =>
        if sendOk sb then
          let r := StreamBlocks sendOk rest
          (sb :: r.1, r.2)
        else ([], some .unavailable)
    else StreamBlocks sendOk rest

/-- StreamChainHead as a function of the sequence of select outcomes:
each BlockProcessed event triggers one chainHeadRetrieval, whose failure
terminates the stream with Internal and whose result is sent to the
client (Unavailable on a failed send); other event types are ignored;
the subscription error channel terminates with Aborted and either
context with Canceled. -/
def StreamChainHead (srv : Server) (sendOk : ChainHead → Bool) :
    List (StreamInput StateFeedType) → List ChainHead × Option GrpcCode
  | [] => ([], none)
  | .subscriberErr :: _ => ([], some .aborted)
  | .serverCtxDone :: _ => ([], some .canceled)
  | .streamCtxDone :: _ => ([], some .canceled)
  | .event t :: rest =>
    if t = StateFeedType.blockProcessed then
      match chainHeadRetrieval srv with
      | .error _ => ([], some .internal)
      | .ok res =>
        if sendOk res then
          let r := StreamChainHead srv sendOk rest
          (res :: r.1, r.2)
        else ([], some .unavailable)
    else StreamChainHead srv sendOk rest

/-- Appending further input to a StreamBlocks run that has not yet
terminated continues the run: sends concatenate and the status is that
of the continuation. -/
theorem StreamBlocks_append (sendOk : SignedBeaconBlock → Bool)
    (xs ys : List (StreamInput BlockEvent)) (sends : List SignedBeaconBlock)
    (h : StreamBlocks sendOk xs = (sends, none)) :
    StreamBlocks sendOk (xs ++ ys) =
      (sends ++ (StreamBlocks sendOk ys).1, (StreamBlocks sendOk ys).2) := by
  induction xs generalizing sends with
  | nil =>
    simp [StreamBlocks] at h
    subst h
    simp [StreamBlocks]
  | cons x rest ih =>
    cases x with
    | subscriberErr => simp [StreamBlocks] at h
    | serverCtxDone => simp [StreamBlocks] at h
    | streamCtxDone => simp [StreamBlocks] at h
    | event ev =>
      obtain ⟨t, d⟩ := ev
      cases t with
      | otherEvent =>
        simp only [List.cons_append]
        rw [show StreamBlocks sendOk (.event ⟨.otherEvent, d⟩ :: (rest ++ ys)) =
            StreamBlocks sendOk (rest ++ ys) by simp [StreamBlocks]]
        rw [show StreamBlocks sendOk (.event ⟨.otherEvent, d⟩ :: rest) =
            StreamBlocks sendOk rest by simp [StreamBlocks]] at h
        exact ih sends h
      | receivedBlock =>
        cases d with
        | badData => simp [StreamBlocks] at h
        | receivedData osb =>
          cases osb with
          | none =>
            simp only [List.cons_append]
            rw [show StreamBlocks sendOk
                (.event ⟨.receivedBlock, .receivedData none⟩ :: (rest ++ ys)) =
                StreamBlocks sendOk (rest ++ ys) by simp [StreamBlocks]]
            rw [show StreamBlocks sendOk
                (.event ⟨.receivedBlock, .receivedData none⟩ :: rest) =
                StreamBlocks sendOk rest by simp [StreamBlocks]] at h
            exact ih sends h
          | some sb =>
            by_cases hs : sendOk sb = true
            · simp only [List.cons_append]
              rw [show StreamBlocks sendOk
                  (.event ⟨.receivedBlock, .receivedData (some sb)⟩ :: rest) =
                  (sb :: (StreamBlocks sendOk rest).1, (StreamBlocks sendOk rest).2) by
                simp [StreamBlocks, hs]] at h
              rw [show StreamBlocks sendOk
                  (.event ⟨.receivedBlock, .receivedData (some sb)⟩ :: (rest ++ ys)) =
                  (sb :: (StreamBlocks sendOk (rest ++ ys)).1,
                   (StreamBlocks sendOk (rest ++ ys)).2) by
                simp [StreamBlocks, hs]]
              rw [Prod.mk.injEq] at h
              obtain ⟨h1, h2⟩ := h
              have h3 := ih (StreamBlocks sendOk rest).1 (by rw [← h2])
              rw [h3]
              simp [← h1]
            · rw [show StreamBlocks sendOk
                  (.event ⟨.receivedBlock, .receivedData (some sb)⟩ :: rest) =
                  ([], some .unavailable) by simp [StreamBlocks, hs]] at h
              simp at h

/-- Appending further input to a StreamChainHead run that has not yet
terminated continues the run: sends concatenate and the status is that
of the continuation. -/
theorem StreamChainHead_append (srv : Server) (sendOk : ChainHead → Bool)
    (xs ys : List (StreamInput StateFeedType)) (sends : List ChainHead)
    (h : StreamChainHead srv sendOk xs = (sends, none)) :
    StreamChainHead srv sendOk (xs ++ ys) =
      (sends ++ (StreamChainHead srv sendOk ys).1,
       (StreamChainHead srv sendOk ys).2) := by
  induction xs generalizing sends with
  | nil =>
    simp [StreamChainHead] at h
    subst h
    simp [StreamChainHead]
  | cons x rest ih =>
    cases x with
    | subscriberErr => simp [StreamChainHead] at h
    | serverCtxDone => simp [StreamChainHead] at h
    | streamCtxDone => simp [StreamChainHead] at h
    | event t =>
      cases t with
      | chainStarted =>
        simp only [List.cons_append]
        rw [show StreamChainHead srv sendOk (.event .chainStarted :: (rest ++ ys)) =
            StreamChainHead srv sendOk (rest ++ ys) by simp [StreamChainHead]]
        rw [show StreamChainHead srv sendOk (.event .chainStarted :: rest) =
            StreamChainHead srv sendOk rest by simp [StreamChainHead]] at h
        exact ih sends h
      | initialized =>
        simp only [List.cons_append]
        rw [show StreamChainHead srv sendOk (.event .initialized :: (rest ++ ys)) =
            StreamChainHead srv sendOk (rest ++ ys) by simp [StreamChainHead]]
        rw [show StreamChainHead srv sendOk (.event .initialized :: rest) =
            StreamChainHead srv sendOk rest by simp [StreamChainHead]] at h
        exact ih sends h
      | blockProcessed =>
        rcases hch : chainHeadRetrieval srv with u | res
        · rw [show StreamChainHead srv sendOk (.event .blockProcessed :: rest) =
              ([], some .internal) by simp [StreamChainHead, hch]] at h
          simp at h
        · by_cases hs : sendOk res = true
          · simp only [List.cons_append]
            rw [show StreamChainHead srv sendOk (.event .blockProcessed :: rest) =
                (res :: (StreamChainHead srv sendOk rest).1,
                 (StreamChainHead srv sendOk rest).2) by
              simp [StreamChainHead, hch, hs]] at h
            rw [show StreamChainHead srv sendOk
                (.event .blockProcessed :: (rest ++ ys)) =
                (res :: (StreamChainHead srv sendOk (rest ++ ys)).1,
                 (StreamChainHead srv sendOk (rest ++ ys)).2) by
              simp [StreamChainHead, hch, hs]]
            rw [Prod.mk.injEq] at h
            obtain ⟨h1, h2⟩ := h
            have h3 := ih (StreamChainHead srv sendOk rest).1 (by rw [← h2])
            rw [h3]
            simp [← h1]
          · rw [show StreamChainHead srv sendOk (.event .blockProcessed :: rest) =
                ([], some .unavailable) by simp [StreamChainHead, hch, hs]] at h
            simp at h

/-- C6: after any non-terminated prefix of select outcomes, both
StreamBlocks and StreamChainHead terminate with Aborted when the feed
subscription's error channel signals, and with Canceled when either the
server-wide context or the per-stream caller context is canceled —
never with an ordinary error status for those triggers. -/
theorem stream_termination_statuses (srv : Server)
    (sendOkB : SignedBeaconBlock → Bool) (sendOkC : ChainHead → Bool)
    (preB : List (StreamInput BlockEvent))
    (preC : List (StreamInput StateFeedType))
    (restB : List (StreamInput BlockEvent))
    (restC : List (StreamInput StateFeedType))
    (sendsB : List SignedBeaconBlock) (sendsC : List ChainHead) :
    (StreamBlocks sendOkB preB = (sendsB, none) →
      StreamBlocks sendOkB (preB ++ .subscriberErr :: restB) =
        (sendsB, some .aborted) ∧
      StreamBlocks sendOkB (preB ++ .serverCtxDone :: restB) =
        (sendsB, some .canceled) ∧
      StreamBlocks sendOkB (preB ++ .streamCtxDone :: restB) =
        (sendsB, some .canceled)) ∧
    (StreamChainHead srv sendOkC preC = (sendsC, none) →
      StreamChainHead srv sendOkC (preC ++ .subscriberErr :: restC) =
        (sendsC, some .aborted) ∧
      StreamChainHead srv sendOkC (preC ++ .serverCtxDone :: restC) =
        (sendsC, some .canceled) ∧
      StreamChainHead srv sendOkC (preC ++ .streamCtxDone :: restC) =
        (sendsC, some .canceled)) := by
  constructor
  · intro h
    refine ⟨?_, ?_, ?_⟩ <;>
      rw [StreamBlocks_append sendOkB preB _ sendsB h] <;> simp [StreamBlocks]
  · intro h
    refine ⟨?_, ?_, ?_⟩ <;>
      rw [StreamChainHead_append srv sendOkC preC _ sendsC h] <;>
        simp [StreamChainHead]

/-- Witness for C6: on a concrete run (one received block, then the
subscription error fires) the stream reports the sent block and the
Aborted status. -/
theorem stream_termination_statuses_witness :
    StreamBlocks (fun _ => true)
      ([.event ⟨.receivedBlock, .receivedData (some ⟨some ⟨7⟩⟩)⟩] ++
        .subscriberErr :: []) =
      ([⟨some ⟨7⟩⟩], some .aborted) ∧
    StreamChainHead srvChainHead (fun _ => true)
      ([] ++ .streamCtxDone :: []) = ([], some .canceled) :=
  ⟨((stream_termination_statuses srvChainHead (fun _ => true) (fun _ => true)
      [.event ⟨.receivedBlock, .receivedData (some ⟨some ⟨7⟩⟩)⟩] [] [] []
      [⟨some ⟨7⟩⟩] []).1 rfl).1,
   ((stream_termination_statuses srvChainHead (fun _ => true) (fun _ => true)
      [.event ⟨.receivedBlock, .receivedData (some ⟨some ⟨7⟩⟩)⟩] [] [] []
      [⟨some ⟨7⟩⟩] []).2 rfl).2.2⟩

/-- C7: when chain-head retrieval succeeds and the gRPC sends go
through, a StreamChainHead loop sends exactly one chain-head snapshot
(the chainHeadRetrieval result) per BlockProcessed event it receives,
and no snapshot for events of any other type. -/
theorem StreamChainHead_one_send_per_blockProcessed (srv : Server)
    (sendOk : ChainHead → Bool) (res : ChainHead) (ts : List StateFeedType)
    (hok : chainHeadRetrieval srv = .ok res)
    (hsend : ∀ c, sendOk c = true) :
    StreamChainHead srv sendOk (ts.map .event) =
      (List.replicate
        (ts.countP (fun t => decide (t = StateFeedType.blockProcessed))) res,
       none) := by
  induction ts with
  | nil => simp [StreamChainHead]
  | cons t rest ih =>
    cases t with
    | chainStarted =>
      simpa [StreamChainHead, List.countP_cons] using ih
    | initialized =>
      simpa [StreamChainHead, List.countP_cons] using ih
    | blockProcessed =>
      simp [StreamChainHead, hok, hsend, List.countP_cons, ih,
        List.replicate_succ]

/-- Witness for C7: three state events, of which two are BlockProcessed,
yield exactly two snapshots on the concrete server. -/
theorem StreamChainHead_one_send_per_blockProcessed_witness :
    StreamChainHead srvChainHead (fun _ => true)
      ([StateFeedType.blockProcessed, StateFeedType.initialized,
        StateFeedType.blockProcessed].map .event) =
      (List.replicate 2 ⟨10, 0, 1010, 64, 2, 1, 96, 3, 2, 64, 2, 1⟩, none) :=
  StreamChainHead_one_send_per_blockProcessed srvChainHead (fun _ => true)
    ⟨10, 0, 1010, 64, 2, 1, 96, 3, 2, 64, 2, 1⟩
    [StateFeedType.blockProcessed, StateFeedType.initialized,
     StateFeedType.blockProcessed]
    rfl (fun _ => rfl)

/-- C10: a ReceivedBlock event carrying a nil signed block causes no
send and no termination (the loop continues as if the event had not
arrived), and in a run free of bad-typed payloads with succeeding sends,
the blocks forwarded to the client are exactly the non-nil signed blocks
of the ReceivedBlock events, in order. -/
theorem StreamBlocks_skips_nil_forwards_nonnil
    (sendOk : SignedBeaconBlock → Bool)
    (rest : List (StreamInput BlockEvent)) (evs : List BlockEvent) :
    (StreamBlocks sendOk
        (.event ⟨.receivedBlock, .receivedData none⟩ :: rest) =
      StreamBlocks sendOk rest) ∧
    ((∀ e ∈ evs, e.type = BlockFeedType.receivedBlock →
        e.data ≠ BlockEventData.badData) →
      (∀ b, sendOk b = true) →
      StreamBlocks sendOk (evs.map .event) =
        (evs.filterMap (fun e =>
          if e.type = BlockFeedType.receivedBlock then
            match e.data with
            | .receivedData (some b) => some b
            | .receivedData none => none
            | .badData => none
          else none),
         none)) := by
  constructor
  · simp [StreamBlocks]
  · intro hbad hsend
    induction evs with
    | nil => simp [StreamBlocks]
    | cons e rest2 ih =>
      have ih2 := ih (fun x hx ht => hbad x (List.mem_cons_of_mem e hx) ht)
      obtain ⟨t, d⟩ := e
      cases t with
      | otherEvent =>
        simpa [StreamBlocks, List.filterMap_cons] using ih2
      | receivedBlock =>
        cases d with
        | badData =>
          exact absurd rfl (hbad ⟨.receivedBlock, .badData⟩ (List.mem_cons_self _ _) rfl)
        | receivedData osb =>
          cases osb with
          | none =>
            simpa [StreamBlocks, List.filterMap_cons] using ih2
          | some sb =>
            simp [StreamBlocks, hsend, List.filterMap_cons, ih2]

/-- Witness for C10: a nil-block event between two real blocks is
skipped and the two real blocks are forwarded in order. -/
theorem StreamBlocks_skips_nil_forwards_nonnil_witness :
    StreamBlocks (fun _ => true)
      ([⟨BlockFeedType.receivedBlock, BlockEventData.receivedData (some ⟨some ⟨1⟩⟩)⟩,
        ⟨BlockFeedType.receivedBlock, BlockEventData.receivedData none⟩,
        ⟨BlockFeedType.otherEvent, BlockEventData.receivedData (some ⟨some ⟨2⟩⟩)⟩,
        ⟨BlockFeedType.receivedBlock,
          BlockEventData.receivedData (some ⟨some ⟨3⟩⟩)⟩].map .event) =
      ([⟨some ⟨1⟩⟩, ⟨some ⟨3⟩⟩], none) :=
  (StreamBlocks_skips_nil_forwards_nonnil (fun _ => true) []
      [⟨BlockFeedType.receivedBlock, BlockEventData.receivedData (some ⟨some ⟨1⟩⟩)⟩,
       ⟨BlockFeedType.receivedBlock, BlockEventData.receivedData none⟩,
       ⟨BlockFeedType.otherEvent, BlockEventData.receivedData (some ⟨some ⟨2⟩⟩)⟩,
       ⟨BlockFeedType.receivedBlock,
         BlockEventData.receivedData (some ⟨some ⟨3⟩⟩)⟩]).2
    (by decide) (fun _ => rfl)

/-- Error raised by checkpoint-store updates. -/
inductive CheckpointErr where
  | invalidCheckpoint
deriving DecidableEq

/-- The Checkpoint Store: the three tracked checkpoints. -/
structure CheckpointStore where
  finalized : Checkpoint
  justified : Checkpoint
  previousJustified : Checkpoint
deriving DecidableEq

/-- Modelled from the spec: the setFinalized operation of the Checkpoint
Store is not part of the excerpt (only the design document describes
it): it "must reject (fails with InvalidCheckpoint) any checkpoint whose
epoch is lower than the currently stored finalized epoch — finalization
is monotonic and never regresses"; otherwise the finalized checkpoint is
replaced. -/
def setFinalized (cs : CheckpointStore) (cp : Checkpoint) :
    Except CheckpointErr CheckpointStore :=
  if cp.epoch < cs.finalized.epoch then .error .invalidCheckpoint
  else .ok { cs with finalized := cp }

/-- The store state after one setFinalized call: unchanged when the call
is rejected. -/
def applySetFinalized (cs : CheckpointStore) (cp : Checkpoint) : CheckpointStore :=
  match setFinalized cs cp with
  | .error _ => cs
  | .ok cs2 => cs2

/-- The store state after a sequence of setFinalized calls. -/
def runSetFinalized (cs : CheckpointStore) : List Checkpoint → CheckpointStore
  | [] => cs
  | cp :: rest => runSetFinalized (applySetFinalized cs cp) rest

/-- Running a sequence of setFinalized calls splits over append. -/
theorem runSetFinalized_append (cs : CheckpointStore) (xs ys : List Checkpoint) :
    runSetFinalized cs (xs ++ ys) = runSetFinalized (runSetFinalized cs xs) ys := by
  induction xs generalizing cs with
  | nil => simp [runSetFinalized]
  | cons cp rest ih => simp [runSetFinalized, ih]

/-- One setFinalized call never lowers the stored finalized epoch. -/
theorem applySetFinalized_mono (cs : CheckpointStore) (cp : Checkpoint) :
    cs.finalized.epoch ≤ (applySetFinalized cs cp).finalized.epoch := by
  unfold applySetFinalized setFinalized
  by_cases h : cp.epoch < cs.finalized.epoch
  · simp [h]
  · simp [h]
    exact le_of_not_lt h

/-- A sequence of setFinalized calls never lowers the stored finalized
epoch. -/
theorem runSetFinalized_mono (cs : CheckpointStore) (cps : List Checkpoint) :
    cs.finalized.epoch ≤ (runSetFinalized cs cps).finalized.epoch := by
  induction cps generalizing cs with
  | nil => simp [runSetFinalized]
  | cons cp rest ih =>
    calc cs.finalized.epoch ≤ (applySetFinalized cs cp).finalized.epoch :=
          applySetFinalized_mono cs cp
      _ ≤ (runSetFinalized (applySetFinalized cs cp) rest).finalized.epoch :=
          ih (applySetFinalized cs cp)
      _ = (runSetFinalized cs (cp :: rest)).finalized.epoch := rfl

/-- C2: over every sequence of setFinalized calls the stored finalized
epoch is non-decreasing (from any intermediate point to any later one),
and a call passing a checkpoint whose epoch is lower than the stored
finalized epoch fails with InvalidCheckpoint and leaves the store
unchanged. -/
theorem setFinalized_monotonic (cs : CheckpointStore) (cp : Checkpoint)
    (cps1 cps2 : List Checkpoint) :
    (cp.epoch < cs.finalized.epoch →
      setFinalized cs cp = .error .invalidCheckpoint ∧
      applySetFinalized cs cp = cs) ∧
    (runSetFinalized cs cps1).finalized.epoch ≤
      (runSetFinalized cs (cps1 ++ cps2)).finalized.epoch := by
  constructor
  · intro h
    constructor
    · simp [setFinalized, h]
    · simp [applySetFinalized, setFinalized, h]
  · rw [runSetFinalized_append]
    exact runSetFinalized_mono (runSetFinalized cs cps1) cps2

/-- Witness for C2: a store finalized at epoch 5 rejects epoch 3
unchanged, and over a concrete call sequence the epoch never
decreases. -/
theorem setFinalized_monotonic_witness :
    (setFinalized ⟨⟨5, 1⟩, ⟨6, 2⟩, ⟨5, 1⟩⟩ ⟨3, 9⟩ =
        .error .invalidCheckpoint ∧
      applySetFinalized ⟨⟨5, 1⟩, ⟨6, 2⟩, ⟨5, 1⟩⟩ ⟨3, 9⟩ =
        ⟨⟨5, 1⟩, ⟨6, 2⟩, ⟨5, 1⟩⟩) ∧
    (runSetFinalized ⟨⟨5, 1⟩, ⟨6, 2⟩, ⟨5, 1⟩⟩ [⟨7, 3⟩]).finalized.epoch ≤
      (runSetFinalized ⟨⟨5, 1⟩, ⟨6, 2⟩, ⟨5, 1⟩⟩
        ([⟨7, 3⟩] ++ [⟨4, 4⟩, ⟨9, 5⟩])).finalized.epoch :=
  ⟨(setFinalized_monotonic ⟨⟨5, 1⟩, ⟨6, 2⟩, ⟨5, 1⟩⟩ ⟨3, 9⟩ [] []).1 (by decide),
   (setFinalized_monotonic ⟨⟨5, 1⟩, ⟨6, 2⟩, ⟨5, 1⟩⟩ ⟨3, 9⟩ [⟨7, 3⟩]
      [⟨4, 4⟩, ⟨9, 5⟩]).2⟩

/-- The Head Manager state needed by pruning: the per-root persisted
state slots, the current head root, and the three checkpoints. -/
structure HeadManager where
  stateStore : List (Root × Nat)
  headRoot : Root
  checkpoints : CheckpointStore
deriving DecidableEq

/-- A root is protected from state pruning when it is referenced by the
current Head Reference or by any of the three checkpoints. -/
def isProtectedRoot (hm : HeadManager) (r : Root) : Bool :=
  r == hm.headRoot ||
  r == hm.checkpoints.finalized.root ||
  r == hm.checkpoints.justified.root ||
  r == hm.checkpoints.previousJustified.root

/-- Modelled from the spec: pruneGarbageState is not part of the excerpt
(only its test is): it "deletes state snapshots for all persisted slots
strictly less than belowSlot, but must never delete the state referenced
by the current Head Reference or by any of the three checkpoints, even
if their slot is below the threshold". -/
def pruneGarbageState (hm : HeadManager) (belowSlot : Nat) : HeadManager :=
  { hm with
    stateStore := hm.stateStore.filter
      (fun e => decide (belowSlot ≤ e.2) || isProtectedRoot hm e.1) }

/-- C4: pruneGarbageState retains exactly the states whose slot is at
least belowSlot or whose root is referenced by the head or a checkpoint;
equivalently, it deletes exactly the unprotected states with slot
strictly below the threshold, and every state at slot ≥ belowSlot
survives. -/
theorem pruneGarbageState_exact (hm : HeadManager) (belowSlot : Nat)
    (r : Root) (s : Nat) :
    (r, s) ∈ (pruneGarbageState hm belowSlot).stateStore ↔
      ((r, s) ∈ hm.stateStore ∧
        (belowSlot ≤ s ∨ isProtectedRoot hm r = true)) := by
  simp [pruneGarbageState, List.mem_filter]

/-- The 100-state scenario of the design document: per-slot states for
slots 0..99 (the root of the state at slot i is i), head at root 99,
checkpoints referencing roots 10, 20 and 30. -/
def hmHundred : HeadManager :=
  { stateStore := (List.range 100).map (fun i => (i, i))
    headRoot := 99
    checkpoints := ⟨⟨0, 10⟩, ⟨1, 20⟩, ⟨0, 30⟩⟩ }

/-- Witness for C4: pruning below slot 50 deletes the state at slot 5,
keeps the checkpoint-referenced state at slot 10 and the state at slot
60. -/
theorem pruneGarbageState_exact_witness :
    (10, 10) ∈ (pruneGarbageState hmHundred 50).stateStore ∧
    (60, 60) ∈ (pruneGarbageState hmHundred 50).stateStore ∧
    ¬ (5, 5) ∈ (pruneGarbageState hmHundred 50).stateStore :=
  ⟨(pruneGarbageState_exact hmHundred 50 10 10).mpr (by decide),
   (pruneGarbageState_exact hmHundred 50 60 60).mpr (by decide),
   fun h => by
     have h2 := (pruneGarbageState_exact hmHundred 50 5 5).mp h
     revert h2
     decide⟩

/-- The Fork-Choice Graph capability: the set of node roots, consulted
through HasNode. -/
structure ForkChoiceStore where
  nodeRoots : List Root
deriving DecidableEq

/-- HasNode: whether a root has a node in the graph. -/
def ForkChoiceStore.hasNode (f : ForkChoiceStore) (r : Root) : Bool :=
  f.nodeRoots.contains r

/-- The blockchain service state needed by hasBlock: the fork-choice
graph and the roots of blocks persisted in the Durable Store. -/
structure ChainService where
  forkChoiceStore : ForkChoiceStore
  dbBlockRoots : List Root
deriving DecidableEq

/-- Modelled from the spec: hasBlock is not part of the excerpt (only
its test is): it "returns true if the root exists in the Fork-Choice
Graph OR in Durable Store (graph is checked first as the fast path ...;
DB is the fallback ...). No error is returned; absence is a normal
boolean outcome". -/
def hasBlock (s : ChainService) (r : Root) : Bool :=
  if s.forkChoiceStore.hasNode r then true
  else s.dbBlockRoots.contains r

/-- C5: hasBlock returns true exactly when the root is a node of the
fork-choice graph or a persisted block of the Durable Store; it is a
total boolean function, so an unknown root yields false and no error is
ever returned. -/
theorem hasBlock_iff (s : ChainService) (r : Root) :
    hasBlock s r = true ↔
      (s.forkChoiceStore.hasNode r = true ∨ s.dbBlockRoots.contains r = true) := by
  unfold hasBlock
  by_cases h : s.forkChoiceStore.hasNode r = true <;> simp [h]

/-- Witness for C5: a root present only in the graph and a root present
only in the Durable Store both yield true; an unknown root yields
false. -/
theorem hasBlock_iff_witness :
    hasBlock ⟨⟨[1]⟩, [2]⟩ 1 = true ∧
    hasBlock ⟨⟨[1]⟩, [2]⟩ 2 = true ∧
    hasBlock ⟨⟨[1]⟩, [2]⟩ 3 = false :=
  ⟨(hasBlock_iff ⟨⟨[1]⟩, [2]⟩ 1).mpr (by decide),
   (hasBlock_iff ⟨⟨[1]⟩, [2]⟩ 2).mpr (by decide),
   by
     have h := hasBlock_iff ⟨⟨[1]⟩, [2]⟩ 3
     revert h
     decide⟩
